import Mathlib

/-!
# Verification of the predicate interval store and document-store cache

Shallow embedding of (vespa) `searchlib/predicate/predicate_interval_store.h`
and of the document-store read-through cache exercised by
`searchlib/tests/docstore/document_store/document_store_test.cpp`.

Machine integers (`uint32_t`) are modelled as `Nat`; the packed reference is a
32-bit word whose upper 8 bits hold the size discriminator and whose lower
24 bits hold the datastore reference (`EntryRefT<18, 6>` occupies 18 + 6 = 24
bits).  The arena (`DataStoreT`) is modelled as a total map from a 24-bit data
reference to the sequence of 32-bit words readable from that slot onward.
-/

namespace Predicate

/-- Modelled from the spec: the constants of `PredicateRefCache`
(`predicate_ref_cache.h` is not under `src/`).  The packed word is 32 bits;
the data reference produced by `EntryRefT<18, 6>` occupies 24 bits, leaving
8 discriminator bits, so the size field starts at bit 24, the overflow
sentinel is the all-ones discriminator 255, and the data-reference mask keeps
the low 24 bits. -/
def SIZE_SHIFT : Nat := 24

/-- Overflow sentinel: the largest value of the 8-bit size discriminator. -/
def MAX_SIZE : Nat := 2 ^ (32 - SIZE_SHIFT) - 1

/-- Mask keeping the low 24 data-reference bits of a packed reference. -/
def DATA_REF_MASK : Nat := 2 ^ SIZE_SHIFT - 1

/-- Modelled from the spec: `class Interval` (searchlib predicate interval
classes are not under `src/`).  An `Interval` record is a single 32-bit word
holding the field `interval`; `sizeof(Interval)/sizeof(uint32_t) = 1`. -/
structure Interval where
  interval : Nat
deriving Repr, DecidableEq

/-- Modelled from the spec: `class IntervalWithBounds` (not under `src/`).
It carries the `interval` word plus an extra 32-bit `bounds` word, so
`sizeof(IntervalWithBounds)/sizeof(uint32_t) = 2`. -/
structure IntervalWithBounds where
  interval : Nat
  bounds : Nat
deriving Repr, DecidableEq

/-- `IntervalT()` — value initialization of an interval record: all fields
zero. -/
def Interval.defaultCtor : Interval := ⟨0⟩

/-- `IntervalT()` — value initialization of an `IntervalWithBounds`: all
fields zero. -/
def IntervalWithBounds.defaultCtor : IntervalWithBounds := ⟨0, 0⟩

/-- `entrySize<IntervalT>()` (header line 54): the size of an interval entry
in number of `uint32_t` words.  `1` for `Interval`, `2` for
`IntervalWithBounds`. -/
def entrySizeInterval : Nat := 1

/-- `entrySize<IntervalWithBounds>()`: two 32-bit words. -/
def entrySizeBounds : Nat := 2

/-- State of a `PredicateIntervalStore`: the datastore buffers (a total map
from 24-bit data reference to the `uint32_t` words readable at that slot),
the next free data reference of the allocator, the allocated word count
(memory-usage proxy for `_store.getMemoryUsage()`), and the dedup ref cache
(`_ref_cache`), an exact-content association from payload words to packed
reference. -/
structure StoreState where
  buffers : Nat → List Nat
  nextRef : Nat
  usedWords : Nat
  refCache : List (List Nat × Nat)

/-- A freshly constructed `PredicateIntervalStore`: empty buffers, data
reference 0 reserved as "no reference", empty dedup cache. -/
def emptyStore : StoreState :=
  { buffers := fun _ => [], nextRef := 1, usedWords := 0, refCache := [] }

/-- `getMemoryUsage()` (header lines 84–86): forwards to the data store;
modelled as the number of allocated words. -/
def getMemoryUsage (s : StoreState) : Nat := s.usedWords

/-- Result of `PredicateIntervalStore::get`: either the caller-supplied
scratch slot (`single_buf`) was written — the single-interval optimization,
where `v` is the value assigned to `single_buf->interval` after value
initialization — or a pointer into an arena buffer is returned, carrying the
words readable there. -/
inductive GetResult where
  | single (v : Nat)
  | buffer (words : List Nat)
deriving Repr, DecidableEq

/-- Output of `PredicateIntervalStore::get`: the returned pointer (as a
`GetResult`) together with `size_out`. -/
structure GetOut where
  result : GetResult
  size_out : Nat
deriving Repr, DecidableEq

/-- Shallow embedding of `PredicateIntervalStore::get` (header lines 94–115),
with the element type `IntervalT` represented by its size in 32-bit words
`es = entrySize<IntervalT>()`:

    uint32_t size = btree_ref.ref() >> RefCacheType::SIZE_SHIFT;
    RefType data_ref(btree_ref.ref() & RefCacheType::DATA_REF_MASK);
    if (size == 0) {                       // single-interval optimization
      *single_buf = IntervalT();
      single_buf->interval = data_ref.ref();
      size_out = 1;
      return single_buf;
    }
    const uint32_t *buf = _store.getBufferEntry<uint32_t>(...);
    if (size == RefCacheType::MAX_SIZE) { size = *buf++; }
    size_out = size / entrySize<IntervalT>();
    return buf;
-/
def get (es : Nat) (s : StoreState) (btree_ref : Nat) : GetOut :=
  let size := btree_ref >>> SIZE_SHIFT
  let data_ref := btree_ref &&& DATA_REF_MASK
  if size = 0 then
    { result := .single data_ref, size_out := 1 }
  else
    let buf := s.buffers data_ref
    if size = MAX_SIZE then
      { result := .buffer (buf.drop 1), size_out := buf.headD 0 / es }
    else
      { result := .buffer buf, size_out := size / es }

/-- Reinterpretation of a word buffer as `Interval` records
(`reinterpret_cast<const IntervalT *>(buf)` with `IntervalT = Interval`):
each word is one record. -/
def wordsToIntervals (ws : List Nat) : List Interval :=
  ws.map Interval.mk

/-- Reinterpretation of a word buffer as `IntervalWithBounds` records:
consecutive word pairs become (interval, bounds). -/
def wordsToBounds : List Nat → List IntervalWithBounds
  | w0 :: w1 :: rest => ⟨w0, w1⟩ :: wordsToBounds rest
  | _ => []

/-- `get<Interval>` at the record level: the logical array of `size_out`
records the caller reads through the returned pointer.  On the
single-interval path this is the scratch slot, holding `Interval()` with its
`interval` field set. -/
def getIntervals (s : StoreState) (btree_ref : Nat) : List Interval × Nat :=
  match get entrySizeInterval s btree_ref with
  | ⟨.single v, n⟩ => ([{ Interval.defaultCtor with interval := v }], n)
  | ⟨.buffer ws, n⟩ => (wordsToIntervals (ws.take (entrySizeInterval * n)), n)

/-- View returned by `get<IntervalWithBounds>`: either the caller-supplied
scratch slot with its contents after the call, or the records read from the
arena buffer. -/
inductive BoundsView where
  | scratch (elem : IntervalWithBounds)
  | arena (elems : List IntervalWithBounds)
deriving Repr, DecidableEq

/-- The records visible through a `BoundsView`. -/
def BoundsView.elems : BoundsView → List IntervalWithBounds
  | .scratch e => [e]
  | .arena l => l

/-- `get<IntervalWithBounds>` at the record level, keeping track of whether
the returned pointer is the caller's scratch slot (`single_buf`) or an arena
buffer. -/
def getBounds (s : StoreState) (btree_ref : Nat) : BoundsView × Nat :=
  match get entrySizeBounds s btree_ref with
  | ⟨.single v, n⟩ =>
      (.scratch { IntervalWithBounds.defaultCtor with interval := v }, n)
  | ⟨.buffer ws, n⟩ => (.arena (wordsToBounds (ws.take (entrySizeBounds * n))), n)

/-- Exact-content lookup in the dedup ref cache: probe for a payload with
identical words and return the resident packed reference if found. -/
def lookupRef : List (List Nat × Nat) → List Nat → Option Nat
  | [], _ => none
  | (k, v) :: rest, ws => if k = ws then some v else lookupRef rest ws

/-- `allocNewEntry<uint32_t>`: hand out a fresh slot at `nextRef` holding the
given words, advancing the allocator and the used-word count. -/
def allocNewEntry (s : StoreState) (ws : List Nat) : StoreState × Nat :=
  ({ s with
      buffers := fun r => if r = s.nextRef then ws else s.buffers r,
      nextRef := s.nextRef + ws.length,
      usedWords := s.usedWords + ws.length }, s.nextRef)

/-- Modelled from the spec: `PredicateIntervalStore::insert` (its definition
lives in `predicate_interval_store.cpp`, not under `src/`), at the word level
(`ws` is the payload serialized to `uint32_t` words, of length
`entrySize * count`, the unit `get` divides by).  Per spec §4.2/§4.3:
an empty payload yields the reserved reference 0; a single word fitting the
24 data-reference bits is embedded inline with discriminator 0 and no
allocation; otherwise the dedup cache is probed for an exact content match
before allocating; a size below the overflow sentinel is stored literally in
the discriminator; a larger payload is allocated with the explicit size as
its first word and the discriminator set to the overflow sentinel.  The
returned packed word is `(discriminator << SIZE_SHIFT) + dataRef`. -/
def insert (s : StoreState) (ws : List Nat) : StoreState × Nat :=
  let size := ws.length
  if size = 0 then (s, 0)
  else if size = 1 ∧ ws.headD 0 < 2 ^ SIZE_SHIFT then (s, ws.headD 0)
  else
    match lookupRef s.refCache ws with
    | some r => (s, r)
    | none =>
      if size < MAX_SIZE then
        let (s1, r) := allocNewEntry s ws
        let packed := size * 2 ^ SIZE_SHIFT + r
        ({ s1 with refCache := (ws, packed) :: s1.refCache }, packed)
      else
        let (s1, r) := allocNewEntry s (size :: ws)
        let packed := MAX_SIZE * 2 ^ SIZE_SHIFT + r
        ({ s1 with refCache := (ws, packed) :: s1.refCache }, packed)

/-- Serialization of `Interval` records to `uint32_t` words
(`reinterpret_cast<const uint32_t *>(&intervals[0])`). -/
def serializeIntervals (vals : List Interval) : List Nat :=
  vals.map Interval.interval

/-- Serialization of `IntervalWithBounds` records to `uint32_t` words:
interval word then bounds word, per record. -/
def serializeBounds : List IntervalWithBounds → List Nat
  | [] => []
  | i :: rest => i.interval :: i.bounds :: serializeBounds rest

/-- `insert<Interval>`: serialize and insert. -/
def insertIntervals (s : StoreState) (vals : List Interval) : StoreState × Nat :=
  insert s (serializeIntervals vals)

/-- `insert<IntervalWithBounds>`: serialize and insert. -/
def insertBounds (s : StoreState) (vals : List IntervalWithBounds) :
    StoreState × Nat :=
  insert s (serializeBounds vals)

/-- Modelled from the spec: `PredicateIntervalStore::remove` (definition not
under `src/`; the header's own doc comment, lines 67–75, states "Remove is
currently disabled", and spec §4.3/§9 call it an intentional no-op). -/
def remove (s : StoreState) (_ref : Nat) : StoreState := s

end Predicate

namespace DocStore

/-- `DocumentStore::Config` as used by the tests: compression is irrelevant
to cache accounting, so only the two capacity fields are modelled. -/
structure Config where
  maxCacheBytes : Nat
  maxCacheEntries : Nat
deriving Repr, DecidableEq

/-- Cumulative cache statistics of a `DocumentStore`. -/
structure CacheStats where
  hits : Nat
  misses : Nat
deriving Repr, DecidableEq

/-- Modelled from the spec: the state of a `DocumentStore` read-through
cache (`documentstore.cpp` is not under `src/`): its configuration, the
internal bounded cache keyed by document identifier (most recent first), and
the cumulative hit/miss statistics. -/
structure DocumentStore where
  config : Config
  cache : List (Nat × List Nat)
  stats : CacheStats

/-- A freshly constructed `DocumentStore`: empty cache, zero statistics. -/
def DocumentStore.init (cfg : Config) : DocumentStore :=
  { config := cfg, cache := [], stats := { hits := 0, misses := 0 } }

/-- `NullDataStore::read` (document_store_test.cpp lines 13–14): the backing
store returns 0 bytes for every identifier. -/
def nullDataStoreRead : Nat → List Nat := fun _ => []

/-- Lookup of a document identifier in the internal cache. -/
def lookupDoc : List (Nat × List Nat) → Nat → Option (List Nat)
  | [], _ => none
  | (i, d) :: rest, id => if i = id then some d else lookupDoc rest id

/-- Keep the newest cache entries whose cumulative byte size fits the
configured byte budget. -/
def takeBytes (budget : Nat) : List (Nat × List Nat) → List (Nat × List Nat)
  | [] => []
  | (i, d) :: rest =>
      if d.length ≤ budget then (i, d) :: takeBytes (budget - d.length) rest
      else []

/-- Modelled from the spec: `DocumentStore::read` (definition not under
`src/`), per spec §4.5: with either capacity field zero the internal cache
is bypassed entirely and every read is counted a miss; otherwise a resident
entry is a hit, and a miss pulls from the backing store, counts a miss and
populates the cache subject to the entry and byte budgets. -/
def DocumentStore.read (backing : Nat → List Nat) (s : DocumentStore)
    (id : Nat) : List Nat × DocumentStore :=
  if s.config.maxCacheBytes = 0 ∨ s.config.maxCacheEntries = 0 then
    (backing id,
     { s with stats := { s.stats with misses := s.stats.misses + 1 } })
  else
    match lookupDoc s.cache id with
    | some d =>
        (d, { s with stats := { s.stats with hits := s.stats.hits + 1 } })
    | none =>
        let d := backing id
        (d, { s with
                cache := takeBytes s.config.maxCacheBytes
                  (((id, d) :: s.cache).take s.config.maxCacheEntries),
                stats := { s.stats with misses := s.stats.misses + 1 } })

/-- Read a sequence of document identifiers, threading the store state. -/
def readMany (backing : Nat → List Nat) (s : DocumentStore)
    (ids : List Nat) : DocumentStore :=
  ids.foldl (fun t i => (DocumentStore.read backing t i).2) s

end DocStore

namespace Predicate

theorem mask_eq_mod (n : Nat) : n &&& DATA_REF_MASK = n % 2 ^ SIZE_SHIFT := by
  unfold DATA_REF_MASK
  exact Nat.and_pow_two_sub_one_eq_mod n SIZE_SHIFT

theorem shift_eq_div (n : Nat) : n >>> SIZE_SHIFT = n / 2 ^ SIZE_SHIFT :=
  Nat.shiftRight_eq_div_pow n SIZE_SHIFT

theorem packed_shift (sz r : Nat) (h : r < 2 ^ SIZE_SHIFT) :
    (sz * 2 ^ SIZE_SHIFT + r) >>> SIZE_SHIFT = sz := by
  rw [shift_eq_div, Nat.mul_comm,
    Nat.mul_add_div (Nat.pow_pos (by norm_num)), Nat.div_eq_of_lt h,
    Nat.add_zero]

theorem packed_mask (sz r : Nat) (h : r < 2 ^ SIZE_SHIFT) :
    (sz * 2 ^ SIZE_SHIFT + r) &&& DATA_REF_MASK = r := by
  rw [mask_eq_mod, Nat.mul_comm, Nat.mul_add_mod, Nat.mod_eq_of_lt h]

theorem small_shift (v : Nat) (h : v < 2 ^ SIZE_SHIFT) : v >>> SIZE_SHIFT = 0 := by
  rw [shift_eq_div, Nat.div_eq_of_lt h]

theorem small_mask (v : Nat) (h : v < 2 ^ SIZE_SHIFT) : v &&& DATA_REF_MASK = v := by
  rw [mask_eq_mod, Nat.mod_eq_of_lt h]

theorem insert_inline_any (s : StoreState) (v : Nat) (h : v < 2 ^ SIZE_SHIFT) :
    Predicate.insert s [v] = (s, v) := by
  simp [Predicate.insert, h]

theorem get_small_val (es : Nat) (s : StoreState) (v : Nat)
    (h : v < 2 ^ SIZE_SHIFT) :
    Predicate.get es s v = { result := .single v, size_out := 1 } := by
  simp [Predicate.get, small_shift v h, small_mask v h]

theorem insert_get_core (es : Nat) (ws : List Nat) (h0 : ws ≠ [])
    (hni : ¬(ws.length = 1 ∧ ws.headD 0 < 2 ^ SIZE_SHIFT)) :
    Predicate.get es (Predicate.insert emptyStore ws).1
      (Predicate.insert emptyStore ws).2
      = { result := .buffer ws, size_out := ws.length / es } := by
  have hlen : ¬ ws.length = 0 := fun hh => h0 (List.length_eq_zero.mp hh)
  have hni' : ¬(ws.length = 1 ∧ ws.head?.getD 0 < 2 ^ SIZE_SHIFT) := by
    simpa using hni
  by_cases hsz : ws.length < MAX_SIZE
  · have hne : ws.length ≠ MAX_SIZE := Nat.ne_of_lt hsz
    simp [Predicate.insert, hlen, hni', emptyStore, lookupRef, allocNewEntry, hsz,
      Predicate.get, packed_shift ws.length 1 (by decide),
      packed_mask ws.length 1 (by decide), hne]
  · simp [Predicate.insert, hlen, hni', emptyStore, lookupRef, allocNewEntry, hsz,
      Predicate.get, packed_shift MAX_SIZE 1 (by decide),
      packed_mask MAX_SIZE 1 (by decide)]
    decide

theorem wordsToIntervals_serialize (vals : List Interval) :
    wordsToIntervals (serializeIntervals vals) = vals := by
  induction vals with
  | nil => rfl
  | cons a rest ih =>
      show Interval.mk a.interval :: wordsToIntervals (serializeIntervals rest)
        = a :: rest
      rw [ih]

theorem wordsToBounds_serialize (vals : List IntervalWithBounds) :
    wordsToBounds (serializeBounds vals) = vals := by
  induction vals with
  | nil => rfl
  | cons a rest ih =>
      show IntervalWithBounds.mk a.interval a.bounds ::
        wordsToBounds (serializeBounds rest) = a :: rest
      rw [ih]

theorem serializeBounds_length (vals : List IntervalWithBounds) :
    (serializeBounds vals).length = 2 * vals.length := by
  induction vals with
  | nil => rfl
  | cons a rest ih => simp [serializeBounds, ih]; omega

end Predicate

namespace DocStore

theorem readMany_disabled (backing : Nat → List Nat) (ids : List Nat) :
    ∀ s : DocumentStore,
      s.config.maxCacheBytes = 0 ∨ s.config.maxCacheEntries = 0 →
      (readMany backing s ids).stats =
        { hits := s.stats.hits, misses := s.stats.misses + ids.length } := by
  induction ids with
  | nil => intro s _; simp [readMany]
  | cons i rest ih =>
      intro s h
      have hcfg : ((DocumentStore.read backing s i).2).config = s.config := by
        unfold DocumentStore.read
        rw [if_pos h]
      have hstats : ((DocumentStore.read backing s i).2).stats =
          { hits := s.stats.hits, misses := s.stats.misses + 1 } := by
        unfold DocumentStore.read
        rw [if_pos h]
      have hstep : readMany backing s (i :: rest) =
          readMany backing (DocumentStore.read backing s i).2 rest := rfl
      rw [hstep, ih _ (by rw [hcfg]; exact h), hstats]
      simp only [List.length_cons]
      congr 1
      omega

end DocStore

namespace Claims

open Predicate DocStore

/-- C3: for every packed reference whose size discriminator equals the
inline sentinel (value 0), `get` reconstructs the single element into the
caller-supplied scratch slot (value-initialized, then its `interval` field
set from the data-reference bits), reports a count of exactly 1, and reads
no arena buffer (the output is independent of the buffer contents). -/
theorem claim_C3_inline_path (es : Nat) (s : StoreState) (ref : Nat)
    (h : ref >>> SIZE_SHIFT = 0) :
    Predicate.get es s ref =
      { result := .single (ref &&& DATA_REF_MASK), size_out := 1 } ∧
    getIntervals s ref =
      ([{ Interval.defaultCtor with interval := ref &&& DATA_REF_MASK }], 1) ∧
    (∀ bufs, Predicate.get es { s with buffers := bufs } ref =
      Predicate.get es s ref) := by
  refine ⟨?_, ?_, ?_⟩
  · simp [Predicate.get, h]
  · simp [getIntervals, Predicate.get, h]
  · intro bufs
    simp [Predicate.get, h]

theorem claim_C3_witness :
    (42 >>> SIZE_SHIFT = 0) ∧
    Predicate.get 1 emptyStore 42 =
      { result := .single (42 &&& DATA_REF_MASK), size_out := 1 } := by
  refine ⟨by decide, ?_⟩
  exact (claim_C3_inline_path 1 emptyStore 42 (by decide)).1

/-- Concrete store refuting C1 as stated: at data reference 5 the arena
buffer begins with the explicit stored size 4, followed by two
`IntervalWithBounds` records (two words each). -/
def cxStoreC1 : StoreState :=
  { emptyStore with
      buffers := fun r => if r = 5 then [4, 10, 20, 30, 40] else [] }

/-- C1, counterexample: for the packed reference with overflow-sentinel
discriminator pointing at `cxStoreC1`'s buffer, the stored first word is 4,
but `get<IntervalWithBounds>` reports a count of 2 (= 4 / entrySize), not
the stored value 4 as the claim states. -/
theorem claim_C1_counterexample :
    (MAX_SIZE * 2 ^ 24 + 5) >>> SIZE_SHIFT = MAX_SIZE ∧
    (cxStoreC1.buffers ((MAX_SIZE * 2 ^ 24 + 5) &&& DATA_REF_MASK)).headD 0 = 4 ∧
    (getBounds cxStoreC1 (MAX_SIZE * 2 ^ 24 + 5)).2 = 2 ∧
    (getBounds cxStoreC1 (MAX_SIZE * 2 ^ 24 + 5)).2 ≠
      (cxStoreC1.buffers ((MAX_SIZE * 2 ^ 24 + 5) &&& DATA_REF_MASK)).headD 0 := by
  refine ⟨by decide, by decide, by decide, by decide⟩

/-- C1, amended: for every packed reference whose size discriminator equals
the overflow sentinel, `get` reads the explicit stored size from the first
word of the referenced arena buffer, returns a view starting at the second
word, and reports that stored value divided by the element size in 32-bit
words (`entrySize`) as the count — equal to the stored value exactly for
one-word elements such as `Interval`. -/
theorem claim_C1_amended (es : Nat) (s : StoreState) (ref : Nat)
    (h : ref >>> SIZE_SHIFT = MAX_SIZE) :
    Predicate.get es s ref =
      { result := .buffer ((s.buffers (ref &&& DATA_REF_MASK)).drop 1),
        size_out := (s.buffers (ref &&& DATA_REF_MASK)).headD 0 / es } := by
  have hne : ref >>> SIZE_SHIFT ≠ 0 := by
    rw [h]; decide
  simp [Predicate.get, h, hne]
  decide

theorem claim_C1_witness :
    ((MAX_SIZE * 2 ^ 24 + 5) >>> SIZE_SHIFT = MAX_SIZE) ∧
    Predicate.get 2 cxStoreC1 (MAX_SIZE * 2 ^ 24 + 5) =
      { result := .buffer
          ((cxStoreC1.buffers ((MAX_SIZE * 2 ^ 24 + 5) &&& DATA_REF_MASK)).drop 1),
        size_out :=
          (cxStoreC1.buffers ((MAX_SIZE * 2 ^ 24 + 5) &&& DATA_REF_MASK)).headD 0 / 2 } :=
  ⟨by decide, claim_C1_amended 2 cxStoreC1 (MAX_SIZE * 2 ^ 24 + 5) (by decide)⟩

/-- Concrete store refuting C2 as stated: at data reference 5 the arena
buffer holds two `IntervalWithBounds` records (four words). -/
def cxStoreC2 : StoreState :=
  { emptyStore with
      buffers := fun r => if r = 5 then [10, 20, 30, 40] else [] }

/-- C2, counterexample: for the packed reference with discriminator 4
(neither sentinel) pointing at `cxStoreC2`'s buffer,
`get<IntervalWithBounds>` reports a count of 2 (= 4 / entrySize), not the
discriminator value 4 as the claim states. -/
theorem claim_C2_counterexample :
    (4 * 2 ^ 24 + 5) >>> SIZE_SHIFT = 4 ∧
    (getBounds cxStoreC2 (4 * 2 ^ 24 + 5)).2 = 2 ∧
    (getBounds cxStoreC2 (4 * 2 ^ 24 + 5)).2 ≠ (4 * 2 ^ 24 + 5) >>> SIZE_SHIFT := by
  refine ⟨by decide, by decide, by decide⟩

/-- C2, amended: for every packed reference whose size discriminator is
neither the inline sentinel nor the overflow sentinel, `get` returns a view
of the full arena buffer starting at its first word and reports the
discriminator value divided by the element size in 32-bit words
(`entrySize`) as the count — equal to the discriminator exactly for
one-word elements such as `Interval`. -/
theorem claim_C2_amended (es : Nat) (s : StoreState) (ref : Nat)
    (h0 : ref >>> SIZE_SHIFT ≠ 0) (h1 : ref >>> SIZE_SHIFT ≠ MAX_SIZE) :
    Predicate.get es s ref =
      { result := .buffer (s.buffers (ref &&& DATA_REF_MASK)),
        size_out := (ref >>> SIZE_SHIFT) / es } := by
  simp [Predicate.get, h0, h1]

theorem claim_C2_witness :
    ((4 * 2 ^ 24 + 5) >>> SIZE_SHIFT ≠ 0) ∧
    ((4 * 2 ^ 24 + 5) >>> SIZE_SHIFT ≠ MAX_SIZE) ∧
    Predicate.get 2 cxStoreC2 (4 * 2 ^ 24 + 5) =
      { result := .buffer (cxStoreC2.buffers ((4 * 2 ^ 24 + 5) &&& DATA_REF_MASK)),
        size_out := ((4 * 2 ^ 24 + 5) >>> SIZE_SHIFT) / 2 } :=
  ⟨by decide, by decide,
    claim_C2_amended 2 cxStoreC2 (4 * 2 ^ 24 + 5) (by decide) (by decide)⟩

/-- C9: `remove` on the interval store is a no-op: the state is unchanged,
so every previously inserted entry remains retrievable by `get` with the
same result and the reported memory usage is unaffected. -/
theorem claim_C9_remove_noop (s : StoreState) (ref : Nat) :
    Predicate.remove s ref = s ∧
    (∀ es r, Predicate.get es (Predicate.remove s ref) r = Predicate.get es s r) ∧
    getMemoryUsage (Predicate.remove s ref) = getMemoryUsage s :=
  ⟨rfl, fun _ _ => rfl, rfl⟩

/-- C10: on the single-interval (inline) path, `get<IntervalWithBounds>`
returns exactly the caller-supplied scratch slot; the scratch element is
value-initialized and only its `interval` field is set from the
data-reference bits, so its `bounds` field holds the default value 0 — the
inline encoding cannot carry bounds data. -/
theorem claim_C10_inline_scratch (s : StoreState) (ref : Nat)
    (h : ref >>> SIZE_SHIFT = 0) :
    getBounds s ref =
      (.scratch { IntervalWithBounds.defaultCtor with
                    interval := ref &&& DATA_REF_MASK }, 1) ∧
    ({ IntervalWithBounds.defaultCtor with
        interval := ref &&& DATA_REF_MASK } : IntervalWithBounds).bounds =
      IntervalWithBounds.defaultCtor.bounds := by
  refine ⟨?_, rfl⟩
  simp [getBounds, Predicate.get, h]

theorem claim_C10_witness :
    (42 >>> SIZE_SHIFT = 0) ∧
    getBounds emptyStore 42 =
      (.scratch { IntervalWithBounds.defaultCtor with
                    interval := 42 &&& DATA_REF_MASK }, 1) :=
  ⟨by decide, (claim_C10_inline_scratch emptyStore 42 (by decide)).1⟩

/-- C4: for every payload of length L ≥ 1 — covering the inline, direct and
overflow (explicit-count) encodings, and both element types — `insert` into
the interval store followed by `get` on the returned packed reference yields
an array equal element-for-element to the inserted payload, with the
reported count equal to L. -/
theorem claim_C4_roundtrip :
    (∀ vals : List Interval, vals ≠ [] →
      getIntervals (insertIntervals emptyStore vals).1
        (insertIntervals emptyStore vals).2 = (vals, vals.length)) ∧
    (∀ vals : List IntervalWithBounds, vals ≠ [] →
      ((getBounds (insertBounds emptyStore vals).1
          (insertBounds emptyStore vals).2).1.elems,
        (getBounds (insertBounds emptyStore vals).1
          (insertBounds emptyStore vals).2).2) = (vals, vals.length)) := by
  constructor
  · intro vals hne
    by_cases hin : (serializeIntervals vals).length = 1 ∧
        (serializeIntervals vals).headD 0 < 2 ^ SIZE_SHIFT
    · obtain ⟨h1, h2⟩ := hin
      cases vals with
      | nil => exact absurd rfl hne
      | cons a tail =>
          cases tail with
          | cons b t => simp [serializeIntervals] at h1
          | nil =>
              have hv : a.interval < 2 ^ SIZE_SHIFT := by
                simpa [serializeIntervals] using h2
              show getIntervals (Predicate.insert emptyStore [a.interval]).1
                  (Predicate.insert emptyStore [a.interval]).2 = ([a], 1)
              rw [insert_inline_any emptyStore a.interval hv]
              simp [getIntervals, entrySizeInterval,
                get_small_val 1 emptyStore a.interval hv]
    · have hne' : serializeIntervals vals ≠ [] := by
        simpa [serializeIntervals] using hne
      have hcore := insert_get_core 1 (serializeIntervals vals) hne' hin
      show getIntervals (Predicate.insert emptyStore (serializeIntervals vals)).1
          (Predicate.insert emptyStore (serializeIntervals vals)).2
          = (vals, vals.length)
      simp only [getIntervals, entrySizeInterval, hcore]
      rw [Nat.div_one, one_mul, List.take_length, wordsToIntervals_serialize]
      simp [serializeIntervals]
  · intro vals hne
    have hvne : vals.length ≠ 0 := fun hh => hne (List.length_eq_zero.mp hh)
    have hlen2 : (serializeBounds vals).length = 2 * vals.length :=
      serializeBounds_length vals
    have hne' : serializeBounds vals ≠ [] := by
      cases vals with
      | nil => exact absurd rfl hne
      | cons a rest => simp [serializeBounds]
    have hni : ¬((serializeBounds vals).length = 1 ∧
        (serializeBounds vals).headD 0 < 2 ^ SIZE_SHIFT) := by
      rw [hlen2]
      rintro ⟨h1, _⟩
      omega
    have hcore := insert_get_core 2 (serializeBounds vals) hne' hni
    show ((getBounds (Predicate.insert emptyStore (serializeBounds vals)).1
        (Predicate.insert emptyStore (serializeBounds vals)).2).1.elems,
      (getBounds (Predicate.insert emptyStore (serializeBounds vals)).1
        (Predicate.insert emptyStore (serializeBounds vals)).2).2)
      = (vals, vals.length)
    simp only [getBounds, entrySizeBounds, hcore]
    rw [hlen2, Nat.mul_div_cancel_left vals.length (by norm_num), ← hlen2,
      List.take_length, wordsToBounds_serialize]
    simp [BoundsView.elems]

theorem claim_C4_witness :
    (([⟨3⟩, ⟨9⟩] : List Interval) ≠ [] ∧
      getIntervals (insertIntervals emptyStore [⟨3⟩, ⟨9⟩]).1
        (insertIntervals emptyStore [⟨3⟩, ⟨9⟩]).2 = ([⟨3⟩, ⟨9⟩], 2)) ∧
    (([⟨1, 2⟩] : List IntervalWithBounds) ≠ [] ∧
      ((getBounds (insertBounds emptyStore [⟨1, 2⟩]).1
          (insertBounds emptyStore [⟨1, 2⟩]).2).1.elems,
        (getBounds (insertBounds emptyStore [⟨1, 2⟩]).1
          (insertBounds emptyStore [⟨1, 2⟩]).2).2) = ([⟨1, 2⟩], 1)) :=
  ⟨⟨by decide, claim_C4_roundtrip.1 [⟨3⟩, ⟨9⟩] (by decide)⟩,
    ⟨by decide, claim_C4_roundtrip.2 [⟨1, 2⟩] (by decide)⟩⟩

/-- C5: for every single-element `Interval` payload whose value fits the
inline encoding (the 24 data-reference bits), `insert` leaves the store —
and hence the arena's reported memory usage — entirely unchanged (no
allocation), and `get` on the returned packed reference round-trips to the
identical value with count 1. -/
theorem claim_C5_inline_no_alloc (s : StoreState) (v : Nat)
    (h : v < 2 ^ SIZE_SHIFT) :
    insertIntervals s [⟨v⟩] = (s, v) ∧
    getMemoryUsage (insertIntervals s [⟨v⟩]).1 = getMemoryUsage s ∧
    getIntervals (insertIntervals s [⟨v⟩]).1 (insertIntervals s [⟨v⟩]).2
      = ([⟨v⟩], 1) := by
  have hins : insertIntervals s [⟨v⟩] = (s, v) := insert_inline_any s v h
  refine ⟨hins, ?_, ?_⟩
  · rw [hins]
  · rw [hins]
    simp [getIntervals, entrySizeInterval, get_small_val 1 s v h]

theorem claim_C5_witness :
    (7 < 2 ^ SIZE_SHIFT) ∧
    insertIntervals emptyStore [⟨7⟩] = (emptyStore, 7) ∧
    getIntervals (insertIntervals emptyStore [⟨7⟩]).1
      (insertIntervals emptyStore [⟨7⟩]).2 = ([⟨7⟩], 1) :=
  ⟨by decide, (claim_C5_inline_no_alloc emptyStore 7 (by decide)).1,
    (claim_C5_inline_no_alloc emptyStore 7 (by decide)).2.2⟩

/-- C6: inserting the same payload content twice returns the same packed
reference both times — inline payloads re-encode to the identical word, and
allocated payloads are found in the dedup ref cache by exact content match
(the modelled cache never evicts, matching the claim's no-eviction
proviso). -/
theorem claim_C6_dedup_same_ref (ws : List Nat) :
    (Predicate.insert (Predicate.insert emptyStore ws).1 ws).2 =
      (Predicate.insert emptyStore ws).2 := by
  by_cases h0 : ws.length = 0
  · simp [Predicate.insert, h0]
  · by_cases hin : ws.length = 1 ∧ ws.head?.getD 0 < 2 ^ SIZE_SHIFT
    · simp [Predicate.insert, h0, hin]
    · by_cases hsz : ws.length < MAX_SIZE
      · simp [Predicate.insert, h0, hin, hsz, emptyStore, lookupRef,
          allocNewEntry]
      · simp [Predicate.insert, h0, hin, hsz, emptyStore, lookupRef,
          allocNewEntry]

/-- C7: for a read-through cache constructed with both capacity fields
zero, every read bypasses the internal cache and is counted as a miss:
after N reads of distinct identifiers the cumulative stats are
{hits: 0, misses: N}. -/
theorem claim_C7_zero_capacity (ids : List Nat) (h : ids.Nodup) :
    (readMany nullDataStoreRead (DocumentStore.init ⟨0, 0⟩) ids).stats =
      { hits := 0, misses := ids.length } := by
  have hd := readMany_disabled nullDataStoreRead ids
    (DocumentStore.init ⟨0, 0⟩) (Or.inl rfl)
  simpa [DocumentStore.init] using hd

theorem claim_C7_witness :
    ([1, 2, 3] : List Nat).Nodup ∧
    (readMany nullDataStoreRead (DocumentStore.init ⟨0, 0⟩) [1, 2, 3]).stats =
      { hits := 0, misses := 3 } :=
  ⟨by decide, claim_C7_zero_capacity [1, 2, 3] (by decide)⟩

/-- C8: for a read-through cache with nonzero byte and entry capacity,
reading the same document identifier twice yields stats {hits: 0, misses: 1}
after the first read (which misses and populates the cache) and
{hits: 1, misses: 1} after the second (a hit). -/
theorem claim_C8_second_read_hits (b e id : Nat) (hb : b ≠ 0) (he : e ≠ 0) :
    (((DocumentStore.init ⟨b, e⟩).read nullDataStoreRead id).2).stats
      = { hits := 0, misses := 1 } ∧
    ((((DocumentStore.init ⟨b, e⟩).read nullDataStoreRead id).2).read
        nullDataStoreRead id).2.stats = { hits := 1, misses := 1 } := by
  obtain ⟨e', rfl⟩ : ∃ e', e = e' + 1 := ⟨e - 1, by omega⟩
  constructor <;>
    simp [DocumentStore.read, DocumentStore.init, hb, lookupDoc, takeBytes,
      nullDataStoreRead]

theorem claim_C8_witness :
    (100000 ≠ 0) ∧ (100 ≠ 0) ∧
    (((DocumentStore.init ⟨100000, 100⟩).read nullDataStoreRead 1).2).stats
      = { hits := 0, misses := 1 } ∧
    ((((DocumentStore.init ⟨100000, 100⟩).read nullDataStoreRead 1).2).read
        nullDataStoreRead 1).2.stats = { hits := 1, misses := 1 } :=
  ⟨by decide, by decide,
    (claim_C8_second_read_hits 100000 100 1 (by decide) (by decide)).1,
    (claim_C8_second_read_hits 100000 100 1 (by decide) (by decide)).2⟩

end Claims
